import Mathlib

/-!
Verification development for the s3-mcp repository: a shallow embedding of
the three Node.js workflows (deploy, seed, teardown) and the shared
`readOutputs` helper, with theorems checking the repository's specification
against the code.

External effects (AWS CLI invocations, S3 SDK calls, the filesystem) are
modelled by explicit oracle data threaded through each workflow function:
each function returns the list of external commands it issues together with
its outcome, mirroring the source's straight-line control flow statement by
statement.  JSON (de)serialization performed by the external `JSON` library
is modelled structurally: a parse either fails or yields the structured
value the code destructures.
-/

namespace S3Mcp

/-! ## JavaScript string truthiness and the `||` operator

The scripts resolve options with chains such as
`options.bucketName || process.env.BUCKET_NAME || previousOutputs.BucketName`.
An absent value is `undefined` (modelled `none`) and the empty string is
falsy, so `a || b` takes `a` exactly when `a` is present and non-empty. -/

/-- JS truthiness of a possibly-absent string: `undefined` and `""` are falsy. -/
def truthy : Option String → Bool
  | none => false
  | some s => !(s == "")

/-- JS `a || b` on possibly-absent strings. -/
def jsOr (a b : Option String) : Option String :=
  if truthy a then a else b

/-- JS `a || d` where the right operand is a (string) literal default. -/
def jsOrDefault (a : Option String) (d : String) : String :=
  match a with
  | none => d
  | some s => if s == "" then d else s

/-! ## The Outputs Record and `scripts/utils/read-outputs.js` -/

/-- One element of the JSON array persisted in `outputs.json`
(`{OutputKey, OutputValue}` as returned by `describe-stacks`). -/
structure Output where
  OutputKey : String
  OutputValue : String
  deriving DecidableEq, Repr

/-- The JS object accumulated by `readOutputs`: a string-keyed map. -/
def emptyRecord : String → Option String := fun _ => none

/-- One step of the `reduce`: `acc[output.OutputKey] = output.OutputValue`. -/
def setKey (acc : String → Option String) (o : Output) : String → Option String :=
  fun k => if k == o.OutputKey then some o.OutputValue else acc k

/-- `JSON.parse(outputContents).reduce((acc, output) => \x7b ... \x7d, \x7b\x7d)`. -/
def reduceOutputs (l : List Output) : String → Option String :=
  l.foldl setKey emptyRecord

/-- State of the `outputs.json` file as seen by `readOutputs`:
the read fails (file absent or unreadable), or it yields content whose JSON
parse either fails (`none`) or produces the expected array of outputs. -/
inductive FileRead where
  | failure
  | content (parsed : Option (List Output))
  deriving Repr

/-- `readOutputs` from `scripts/utils/read-outputs.js`: reads and parses
`outputs.json`, folding the array into a key-value record; the surrounding
`try`/`catch` turns every read or parse failure into the empty record.  The
function is total (it never propagates an exception). -/
def readOutputs : FileRead → String → Option String
  | .failure => emptyRecord
  | .content none => emptyRecord
  | .content (some l) => reduceOutputs l

/-! ## Deploy option resolution (`scripts/deploy.js`, `parseArgs` and
the resolution block at the top of `deployStack`) -/

/-- The `options` object built by `parseArgs` in `deploy.js`.  The source
initializes it as `\x7b region: 'us-east-1' \x7d`; the other fields start
`undefined`. -/
structure DeployCliOptions where
  region : Option String
  bucketName : Option String
  trustAccountOne : Option String
  trustAccountTwo : Option String
  deriving DecidableEq, Repr

/-- `const options = \x7b region: 'us-east-1' \x7d`. -/
def initialDeployOptions : DeployCliOptions :=
  { region := some "us-east-1", bucketName := none,
    trustAccountOne := none, trustAccountTwo := none }

/-- Result of `parseArgs`: either the process exits (help, missing region)
or the parsed options are returned. -/
inductive ParseResult where
  | exit (code : Nat)
  | ok (opts : DeployCliOptions)
  deriving DecidableEq, Repr

/-- The argument loop of `deploy.js`'s `parseArgs`: each recognized flag
stores `args[i + 1]` (which is `undefined` when the flag is the last
argument) and skips it; `--help`/`-h` exits 0; unknown arguments are
ignored. -/
def parseArgsLoop : List String → DeployCliOptions → ParseResult
  | [], opts => .ok opts
  | [a], opts =>
    if a == "--region" then .ok { opts with region := none }
    else if a == "--bucket-name" then .ok { opts with bucketName := none }
    else if a == "--trust-account-one" then .ok { opts with trustAccountOne := none }
    else if a == "--trust-account-two" then .ok { opts with trustAccountTwo := none }
    else if a == "--help" || a == "-h" then .exit 0
    else .ok opts
  | a :: b :: rest, opts =>
    if a == "--region" then parseArgsLoop rest { opts with region := some b }
    else if a == "--bucket-name" then parseArgsLoop rest { opts with bucketName := some b }
    else if a == "--trust-account-one" then parseArgsLoop rest { opts with trustAccountOne := some b }
    else if a == "--trust-account-two" then parseArgsLoop rest { opts with trustAccountTwo := some b }
    else if a == "--help" || a == "-h" then .exit 0
    else parseArgsLoop (b :: rest) opts

/-- `parseArgs` from `deploy.js`: runs the flag loop starting from the
defaulted options object, then `if (!options.region) \x7b ... process.exit(1) \x7d`. -/
def parseArgs (args : List String) : ParseResult :=
  match parseArgsLoop args initialDeployOptions with
  | .exit c => .exit c
  | .ok opts => if truthy opts.region then .ok opts else .exit 1

/-- Environment variables consulted by `deployStack`. -/
structure DeployEnv where
  BUCKET_NAME : Option String
  AWS_DEFAULT_REGION : Option String
  TRUST_ACCOUNT_ONE : Option String
  TRUST_ACCOUNT_TWO : Option String

/-- `options.bucketName || process.env.BUCKET_NAME || previousOutputs.BucketName`
(deploy.js line 147; note: no hard-coded default). -/
def resolveBucketName (opts : DeployCliOptions) (env : DeployEnv)
    (prev : String → Option String) : Option String :=
  jsOr opts.bucketName (jsOr env.BUCKET_NAME (prev "BucketName"))

/-- `options.region || process.env.AWS_DEFAULT_REGION || previousOutputs.Region || 'us-east-1'`
(deploy.js line 148). -/
def resolveRegion (opts : DeployCliOptions) (env : DeployEnv)
    (prev : String → Option String) : String :=
  jsOrDefault (jsOr opts.region (jsOr env.AWS_DEFAULT_REGION (prev "Region"))) "us-east-1"

/-- `options.trustAccountOne || process.env.TRUST_ACCOUNT_ONE ||
previousOutputs.TrustPolicyAccountIdOne || '690332314549'` (deploy.js line 149). -/
def resolveTrustOne (opts : DeployCliOptions) (env : DeployEnv)
    (prev : String → Option String) : String :=
  jsOrDefault (jsOr opts.trustAccountOne
    (jsOr env.TRUST_ACCOUNT_ONE (prev "TrustPolicyAccountIdOne"))) "690332314549"

/-- `options.trustAccountTwo || process.env.TRUST_ACCOUNT_TWO ||
previousOutputs.TrustPolicyAccountIdTwo || '332134949057'` (deploy.js line 150). -/
def resolveTrustTwo (opts : DeployCliOptions) (env : DeployEnv)
    (prev : String → Option String) : String :=
  jsOrDefault (jsOr opts.trustAccountTwo
    (jsOr env.TRUST_ACCOUNT_TWO (prev "TrustPolicyAccountIdTwo"))) "332134949057"

/-! ## The external command runner (`execCommand` / `execCommandSafe`) -/

/-- The structured failure captured by `execCommandSafe`:
`\x7b success: false, error, stdout, stderr \x7d` (stdout/stderr may be absent). -/
structure SafeFailure where
  error : String
  stdout : Option String
  stderr : Option String
  deriving Repr

/-- Outcome of `execCommandSafe`: `\x7b success: true, result \x7d` or a
captured failure.  (The strict `execCommand` variant exits the process on
failure and is modelled by a Bool/Option oracle at each call site.) -/
inductive SafeResult where
  | ok (result : String)
  | fail (f : SafeFailure)
  deriving Repr

/-- JS `charsStartWith pat text`: does `text` start with `pat`? -/
def charsStartWith : List Char → List Char → Bool
  | [], _ => true
  | _ :: _, [] => false
  | p :: ps, t :: ts => p == t && charsStartWith ps ts

/-- Does `text` contain `pat` as a contiguous subsequence? -/
def charsContain : List Char → List Char → Bool
  | [], pat => pat.isEmpty
  | t :: ts, pat => charsStartWith pat (t :: ts) || charsContain ts pat

/-- JS `s.includes(sub)`. -/
def jsIncludes (s sub : String) : Bool :=
  charsContain s.data sub.data

/-- The no-op error text matched by `deployStack`:
`result.stderr.includes('No updates are to be performed')`. -/
def noUpdatesText : String := "No updates are to be performed"

/-- `result.stderr && result.stderr.includes('No updates are to be performed')`. -/
def stderrHasNoUpdates (f : SafeFailure) : Bool :=
  match f.stderr with
  | some s => jsIncludes s noUpdatesText
  | none => false

/-! ## Deploy orchestrator (`scripts/deploy.js`, `deployStack`) -/

/-- `const STACK_NAME = 's3-mcp-infrastructure'`. -/
def STACK_NAME : String := "s3-mcp-infrastructure"

/-- `path.join(__dirname, '..', 'stack.yml')`, modelled as the relative path. -/
def TEMPLATE_FILE : String := "../stack.yml"

/-- External AWS invocations issued by the workflows, in source order. -/
inductive AwsCmd where
  | awsVersion
  | stsGetCallerIdentity
  | describeStacks (stackName region : String)
  | stackOp (command : String)
  | waitStack (waitCommand region : String)
  | describeOutputs (region : String)
  | listObjectVersions (bucket region : String)
  | deleteObject (bucket key versionId region : String)
  | deleteStack (region : String)
  | waitDeleteStack (region : String)
  deriving DecidableEq, Repr

/-- How a workflow run ends: `process.exit(code)`, an uncaught `throw`,
or normal completion (process exit code 0). -/
inductive RunOutcome where
  | exited (code : Nat)
  | threw (msg : String)
  | done
  deriving DecidableEq, Repr

/-- The literal bucket parameter hard-coded in the stack command template
(deploy.js line 171): the resolved `bucketName` is not interpolated. -/
def bucketParamLiteral : String := "ParameterValue=s3-mcp-test-bucket-12345"

/-- The create/update command template of `deployStack` (deploy.js lines
167-175), with line-continuation whitespace collapsed to single spaces.
The bucket parameter is the hard-coded literal; only the trust accounts
and region are interpolated. -/
def deployCommandString (operation trustAccountOne trustAccountTwo region : String) : String :=
  ("aws cloudformation " ++ operation ++
    " --stack-name " ++ STACK_NAME ++
    " --template-body file://" ++ TEMPLATE_FILE ++
    " --parameters ParameterKey=YourBucketName,") ++
  bucketParamLiteral ++
  (" ParameterKey=TrustPolicyAccountIdOne,ParameterValue=" ++ trustAccountOne ++
    " ParameterKey=TrustPolicyAccountIdTwo,ParameterValue=" ++ trustAccountTwo ++
    " --capabilities CAPABILITY_NAMED_IAM --region " ++ region)

/-- The stack command actually executed for a given invocation. -/
def resolvedCommand (opts : DeployCliOptions) (env : DeployEnv)
    (prev : String → Option String) (stackAlreadyExists : Bool) : String :=
  deployCommandString (if stackAlreadyExists then "update-stack" else "create-stack")
    (resolveTrustOne opts env prev) (resolveTrustTwo opts env prev)
    (resolveRegion opts env prev)

/-- The message of the `throw new Error(...)` in `deployStack`'s trust
validation (deploy.js line 199). -/
def trustRequiredMsg : String := "AWS account IDs for Trusted Relationships are required"

/-- Oracle data for one `deployStack` run: the state of `outputs.json`,
the answer of the stack-existence probe, the safe-run outcome of the
create/update command, and the outcomes of the wait, describe-outputs,
JSON-parse and file-write steps. -/
structure DeployWorld where
  outputsFile : FileRead
  stackExistsAns : Bool
  opResult : SafeResult
  waitOk : Bool
  describeResult : Option String
  parsed : Option (List Output)
  writeOk : Bool

/-- Fetching, parsing and persisting the stack outputs (deploy.js lines
229-252): `execCommand` for `describe-stacks ... --query 'Stacks[0].Outputs'`
(exits 1 on failure), then `JSON.parse` (exits 1 on failure), then
`fs.writeFileSync` of `outputs.json` (exits 1 on failure).  Returns the
commands issued, the outcome, and the array written to `outputs.json`. -/
def fetchOutputs (w : DeployWorld) (region : String) :
    List AwsCmd × RunOutcome × Option (List Output) :=
  match w.describeResult with
  | none => ([.describeOutputs region], .exited 1, none)
  | some _ =>
    match w.parsed with
    | none => ([.describeOutputs region], .exited 1, none)
    | some outputsData =>
      if w.writeOk then ([.describeOutputs region], .done, some outputsData)
      else ([.describeOutputs region], .exited 1, none)

/-- Control flow after the safe run of the stack command (deploy.js lines
203-252): a failure whose stderr contains the no-op text logs and falls
through to the outputs fetch; any other failure exits 1; a success waits
for completion (`execCommand`, exits 1 on failure) and then fetches. -/
def afterStackOp (w : DeployWorld) (stackAlreadyExists : Bool) (region : String) :
    List AwsCmd × RunOutcome × Option (List Output) :=
  match w.opResult with
  | .fail f =>
    if stderrHasNoUpdates f then fetchOutputs w region
    else ([], .exited 1, none)
  | .ok _ =>
    let waitCommand := if stackAlreadyExists then "stack-update-complete" else "stack-create-complete"
    if w.waitOk then
      let (tr, outc, written) := fetchOutputs w region
      (.waitStack waitCommand region :: tr, outc, written)
    else ([.waitStack waitCommand region], .exited 1, none)

/-- `deployStack` (deploy.js lines 144-263): reads `outputs.json`, resolves
the four options, probes stack existence (`describe-stacks`, an external
call), builds the create/update command, validates the trust accounts
(throwing if either is falsy), safe-runs the command, and proceeds per
`afterStackOp`. -/
def deployStack (opts : DeployCliOptions) (env : DeployEnv) (w : DeployWorld) :
    List AwsCmd × RunOutcome × Option (List Output) :=
  let previousOutputs := readOutputs w.outputsFile
  let trustAccountOne := resolveTrustOne opts env previousOutputs
  let trustAccountTwo := resolveTrustTwo opts env previousOutputs
  let region := resolveRegion opts env previousOutputs
  let probe := AwsCmd.describeStacks STACK_NAME region
  let command := resolvedCommand opts env previousOutputs w.stackExistsAns
  if trustAccountOne == "" || trustAccountTwo == "" then
    ([probe], .threw trustRequiredMsg, none)
  else
    let (rest, outc, written) := afterStackOp w w.stackExistsAns region
    (probe :: AwsCmd.stackOp command :: rest, outc, written)

/-! ## Teardown orchestrator (`scripts/teardown.js`) -/

/-- One entry of `Versions` or `DeleteMarkers` in the
`list-object-versions` response. -/
structure ObjVersion where
  Key : String
  VersionId : String
  deriving DecidableEq, Repr

/-- The parsed `list-object-versions` response; either field may be absent
(`listData.Versions || []`). -/
structure ListVersionsData where
  Versions : Option (List ObjVersion)
  DeleteMarkers : Option (List ObjVersion)
  deriving Repr

/-- `clearS3Bucket` (teardown.js lines 257-303): safe-runs a single
`list-object-versions` call; on failure logs "Bucket appears to be empty
or does not exist" and returns without error.  On success it parses the
JSON (a parse failure is rethrown by the surrounding catch, modelled as
`.error`), then issues one `delete-object` call per listed version and per
listed delete marker, keyed by `Key` and `VersionId`. -/
def clearS3Bucket (bucketName region : String) (listResult : SafeResult)
    (listParsed : Option ListVersionsData) : List AwsCmd × Except String Unit :=
  let listCmd := AwsCmd.listObjectVersions bucketName region
  match listResult with
  | .fail _ => ([listCmd], .ok ())
  | .ok _ =>
    match listParsed with
    | none => ([listCmd], .error "JSON parse error")
    | some listData =>
      let versions := listData.Versions.getD []
      let deleteMarkers := listData.DeleteMarkers.getD []
      if versions.length + deleteMarkers.length == 0 then ([listCmd], .ok ())
      else
        let delVersions := versions.map fun v =>
          AwsCmd.deleteObject bucketName v.Key v.VersionId region
        let delMarkers := deleteMarkers.map fun m =>
          AwsCmd.deleteObject bucketName m.Key m.VersionId region
        (listCmd :: (delVersions ++ delMarkers), .ok ())

/-- Oracle data for one `teardown` run. -/
structure TeardownWorld where
  outputsFile : FileRead
  stackExistsAns : Bool
  listResult : SafeResult
  listParsed : Option ListVersionsData
  deleteResult : SafeResult
  waitDeleteOk : Bool

/-- `teardown` (teardown.js lines 374-405): reads `outputs.json`; exits 1
when the record has no bucket name; probes stack existence (an external
`describe-stacks`) and returns successfully when the stack is absent;
otherwise empties the bucket, safe-runs `delete-stack` (throwing on
failure), waits for deletion (`execCommand`, exits 1 on failure) and
removes `outputs.json` (filesystem only, errors swallowed). -/
def teardown (optRegion : Option String) (w : TeardownWorld) :
    List AwsCmd × RunOutcome :=
  let previousOutputs := readOutputs w.outputsFile
  let bucketName := previousOutputs "BucketName"
  let region := jsOrDefault (jsOr optRegion (previousOutputs "Region")) "us-east-1"
  if !(truthy bucketName) then ([], .exited 1)
  else
    let bn := bucketName.getD ""
    let probe := AwsCmd.describeStacks STACK_NAME region
    if !w.stackExistsAns then ([probe], .done)
    else
      let (clearTrace, clearRes) := clearS3Bucket bn region w.listResult w.listParsed
      match clearRes with
      | .error m => (probe :: clearTrace, .threw m)
      | .ok _ =>
        let delTrace := [AwsCmd.deleteStack region]
        match w.deleteResult with
        | .fail _ => (probe :: clearTrace ++ delTrace,
            .threw "Failed to delete CloudFormation stack")
        | .ok _ =>
          let waitTrace := [AwsCmd.waitDeleteStack region]
          if w.waitDeleteOk then (probe :: clearTrace ++ delTrace ++ waitTrace, .done)
          else (probe :: clearTrace ++ delTrace ++ waitTrace, .exited 1)

/-- A command is a bucket-emptying call (`list-object-versions` or
`delete-object`). -/
def isBucketEmptyingCmd : AwsCmd → Bool
  | .listObjectVersions _ _ => true
  | .deleteObject _ _ _ _ => true
  | _ => false

/-- A command is a stack-deletion call (`delete-stack` or its wait). -/
def isStackDeletionCmd : AwsCmd → Bool
  | .deleteStack _ => true
  | .waitDeleteStack _ => true
  | _ => false

/-! ## Seed uploader (`scripts/setup.js`) -/

/-- A file enumerated from the seed directory
(`\x7b localPath, fileName, size \x7d`). -/
structure SeedFile where
  fileName : String
  size : Nat
  deriving DecidableEq, Repr

/-- Outcome of the S3 `PutObjectCommand` send for one file (the oracle also
covers failures of the preceding `fs.readFile`, caught by the same `try`). -/
inductive S3SendResult where
  | ok (etag : String)
  | err (message : String)
  deriving DecidableEq, Repr

/-- Did the send fail? -/
def isSendErr : S3SendResult → Bool
  | .ok _ => false
  | .err _ => true

/-- The per-file result object built by `uploadFileToS3`. -/
structure UploadResult where
  fileName : String
  success : Bool
  etag : Option String
  error : Option String
  size : Nat
  deriving DecidableEq, Repr

/-- `uploadFileToS3` (setup.js lines 364-399): the whole body is wrapped in
`try`/`catch`, so a failure never escapes; it yields a success record with
the returned ETag or a failure record with the captured error message. -/
def uploadFileToS3 (file : SeedFile) (send : S3SendResult) : UploadResult :=
  match send with
  | .ok etag =>
    { fileName := file.fileName, success := true, etag := some etag,
      error := none, size := file.size }
  | .err message =>
    { fileName := file.fileName, success := false, etag := none,
      error := some message, size := file.size }

/-- The upload phase of `uploadToS3` (setup.js lines 480-534): an early
return when no files were found (the process then ends with code 0);
otherwise a strictly sequential loop pushing one result per file, then a
summary split into successful/failed and
`process.exit(failed.length === 0 ? 0 : 1)`. -/
def uploadToS3 (files : List SeedFile) (send : SeedFile → S3SendResult) :
    List UploadResult × Nat :=
  if files.length == 0 then ([], 0)
  else
    let results := files.map fun f => uploadFileToS3 f (send f)
    let failed := results.filter fun r => !r.success
    (results, if failed.length == 0 then 0 else 1)

/-! ## Seed entry point validation (`setup.js`, `main`) -/

/-- `[a-z0-9]`. -/
def isLowerAlnum (c : Char) : Bool :=
  (decide ('a' ≤ c) && decide (c ≤ 'z')) || (decide ('0' ≤ c) && decide (c ≤ '9'))

/-- `[a-z0-9-]`. -/
def isLowerAlnumHyphen (c : Char) : Bool :=
  isLowerAlnum c || c == '-'

/-- The regex `[a-z0-9][a-z0-9-]` followed by 1 to 61 repetitions and a
final `[a-z0-9]`, anchored at both ends (setup.js line 572): total length
3 to 63, first and last characters lower alphanumeric, middle characters
lower alphanumeric or hyphen. -/
def bucketNameRegexTest (s : String) : Bool :=
  let cs := s.data
  decide (3 ≤ cs.length) && decide (cs.length ≤ 63) &&
  (match cs.head? with | some c => isLowerAlnum c | none => false) &&
  (match cs.getLast? with | some c => isLowerAlnum c | none => false) &&
  (cs.drop 1).dropLast.all isLowerAlnumHyphen

/-- The validation condition of setup.js line 572:
`!regex.test(bucketName) && bucketName.length > 3`. -/
def seedBucketNameRejected (bucketName : String) : Bool :=
  !(bucketNameRegexTest bucketName) && decide (3 < bucketName.length)

/-- What the seed `main` does before any bucket access. -/
inductive SeedAction where
  | exitNoBucket
  | exitInvalidName
  | runUpload (bucket : String)
  deriving DecidableEq, Repr

/-- `main` of setup.js (lines 551-579): resolves the bucket name from
`process.argv[2] || outputs.BucketName`, exits 1 when absent, exits 1 when
the validation condition rejects the name, and otherwise proceeds to
`uploadToS3` (the first bucket access). -/
def seedMain (argBucket : Option String) (outputsFile : FileRead) : SeedAction :=
  let outputs := readOutputs outputsFile
  let bucketName := jsOr argBucket (outputs "BucketName")
  if !(truthy bucketName) then .exitNoBucket
  else
    let bn := bucketName.getD ""
    if seedBucketNameRejected bn then .exitInvalidName
    else .runUpload bn

/-- Modelled from the spec: the S3 naming rule the claim states —
"3-63 characters, lowercase letters, digits, and hyphens" — used as the
comparison point for the code's validation condition. -/
def specBucketNameWellFormed (bucketName : String) : Bool :=
  decide (3 ≤ bucketName.length) && decide (bucketName.length ≤ 63) &&
  bucketName.data.all isLowerAlnumHyphen

/-- Modelled from the spec: the resolution chain as §3 and §8 state it,
"explicit flag > environment variable > persisted record > hard-coded
default", each source used exactly when present. -/
def specResolveChain (flag envVar record : Option String) (dflt : String) : String :=
  flag.getD (envVar.getD (record.getD dflt))

/-! ## Helper lemmas -/

/-- A `||`-with-literal-default resolution is never empty when the literal
default is non-empty. -/
lemma jsOrDefault_ne_empty (a : Option String) (d : String) (hd : d ≠ "") :
    jsOrDefault a d ≠ "" := by
  cases a with
  | none => exact hd
  | some s =>
    by_cases h : s = ""
    · simpa [jsOrDefault, h] using hd
    · simp [jsOrDefault, h]

/-- The first resolved trust identifier is never the empty string: the
hard-coded default `'690332314549'` terminates the `||` chain. -/
lemma resolveTrustOne_ne_empty (opts : DeployCliOptions) (env : DeployEnv)
    (prev : String → Option String) : resolveTrustOne opts env prev ≠ "" :=
  jsOrDefault_ne_empty _ _ (by decide)

/-- The second resolved trust identifier is never the empty string. -/
lemma resolveTrustTwo_ne_empty (opts : DeployCliOptions) (env : DeployEnv)
    (prev : String → Option String) : resolveTrustTwo opts env prev ≠ "" :=
  jsOrDefault_ne_empty _ _ (by decide)

/-- Falling back through an absent record entry behaves as if the record
step were skipped. -/
lemma jsOrDefault_jsOr_none (a : Option String) (d : String) :
    jsOrDefault (jsOr a none) d = jsOrDefault a d := by
  cases a with
  | none => rfl
  | some s =>
    by_cases h : s = ""
    · subst h; rfl
    · have ht : truthy (some s) = true := by simp [truthy, h]
      simp [jsOr, ht]

lemma resolveTrustOne_beq_empty (opts : DeployCliOptions) (env : DeployEnv)
    (prev : String → Option String) : (resolveTrustOne opts env prev == "") = false :=
  beq_eq_false_iff_ne.mpr (resolveTrustOne_ne_empty opts env prev)

lemma resolveTrustTwo_beq_empty (opts : DeployCliOptions) (env : DeployEnv)
    (prev : String → Option String) : (resolveTrustTwo opts env prev == "") = false :=
  beq_eq_false_iff_ne.mpr (resolveTrustTwo_ne_empty opts env prev)

/-- `fetchOutputs` always issues exactly the single `describe-stacks`
outputs query. -/
lemma fetchOutputs_trace (w : DeployWorld) (region : String) :
    (fetchOutputs w region).1 = [AwsCmd.describeOutputs region] := by
  unfold fetchOutputs
  cases w.describeResult with
  | none => rfl
  | some r =>
    cases w.parsed with
    | none => rfl
    | some d => by_cases h : w.writeOk <;> simp [h]

/-- When the outputs fetch, parse and write all succeed, `fetchOutputs`
completes normally and persists the parsed array. -/
lemma fetchOutputs_success (w : DeployWorld) (region r : String) (d : List Output)
    (h1 : w.describeResult = some r) (h2 : w.parsed = some d) (h3 : w.writeOk = true) :
    fetchOutputs w region = ([AwsCmd.describeOutputs region], RunOutcome.done, some d) := by
  unfold fetchOutputs
  rw [h1, h2, h3]
  simp

/-- `fetchOutputs` never throws. -/
lemma fetchOutputs_ne_threw (w : DeployWorld) (region msg : String) :
    (fetchOutputs w region).2.1 ≠ RunOutcome.threw msg := by
  unfold fetchOutputs
  cases w.describeResult with
  | none => simp
  | some r =>
    cases w.parsed with
    | none => simp
    | some d => by_cases h : w.writeOk <;> simp [h]

/-- `afterStackOp` never throws: its outcomes are `exited 1` or `done`. -/
lemma afterStackOp_ne_threw (w : DeployWorld) (b : Bool) (region msg : String) :
    (afterStackOp w b region).2.1 ≠ RunOutcome.threw msg := by
  unfold afterStackOp
  cases w.opResult with
  | fail f =>
    by_cases h : stderrHasNoUpdates f
    · simpa [h] using fetchOutputs_ne_threw w region msg
    · simp [h]
  | ok s =>
    by_cases h : w.waitOk
    · rcases hp : fetchOutputs w region with ⟨tr, outc, written⟩
      have := fetchOutputs_ne_threw w region msg
      rw [hp] at this
      simp [h, hp]
      exact this
    · simp [h]

/-! ## Claim theorems -/

/-- The environment of the C1 failing input: `AWS_DEFAULT_REGION` set to
`eu-west-1`, no other variables set. -/
def c1Env : DeployEnv :=
  { BUCKET_NAME := none, AWS_DEFAULT_REGION := some "eu-west-1",
    TRUST_ACCOUNT_ONE := none, TRUST_ACCOUNT_TWO := none }

/-- C1: the claim states that each of the four deploy options falls back
flag > environment variable > persisted record > hard-coded default.  The
code violates this: `parseArgs` pre-initializes `options.region` to
`'us-east-1'`, so on a flagless invocation the resolved region is
`'us-east-1'` even when `AWS_DEFAULT_REGION` is set to `'eu-west-1'`
(the env var and record are never consulted), whereas the spec's chain
yields `'eu-west-1'`; moreover the resolved bucket name has no hard-coded
default and stays absent when flag, env and record are all unset. -/
theorem c1_region_env_var_shadowed :
    parseArgs [] = ParseResult.ok initialDeployOptions ∧
    resolveRegion initialDeployOptions c1Env emptyRecord = "us-east-1" ∧
    specResolveChain none (some "eu-west-1") none "us-east-1" = "eu-west-1" ∧
    resolveBucketName initialDeployOptions c1Env emptyRecord = none := by
  refine ⟨by decide, rfl, rfl, rfl⟩

/-- C9: the claim states every malformed bucket name (violating the
3-63 chars / lowercase / digits / hyphens rule) is rejected fatally before
any bucket access.  The code's condition
`!regex.test(bucketName) && bucketName.length > 3` skips validation for
names of length ≤ 3: the malformed name `"ab"` (2 characters) is not
rejected and the seed main proceeds straight to the upload (the first
bucket access). -/
theorem c9_short_malformed_bucket_accepted :
    specBucketNameWellFormed "ab" = false ∧
    seedBucketNameRejected "ab" = false ∧
    seedMain (some "ab") FileRead.failure = SeedAction.runUpload "ab" := by
  refine ⟨by decide, by decide, by decide⟩

/-- C10: `readOutputs` is a total function (the `catch` swallows every
read or parse failure): an absent/unreadable file and malformed JSON both
yield the empty record, and a resolution chain consulting such a record
falls through to its next source exactly as if the record step were
skipped. -/
theorem c10_readOutputs_failure_empty :
    (∀ k, readOutputs FileRead.failure k = none) ∧
    (∀ k, readOutputs (FileRead.content none) k = none) ∧
    (∀ flag envVar d k,
      jsOrDefault (jsOr flag (jsOr envVar (readOutputs FileRead.failure k))) d =
        jsOrDefault (jsOr flag envVar) d) := by
  refine ⟨fun k => rfl, fun k => rfl, fun flag envVar d k => ?_⟩
  show jsOrDefault (jsOr flag (jsOr envVar none)) d = jsOrDefault (jsOr flag envVar) d
  by_cases hf : truthy flag
  · simp [jsOr, hf]
  · simp only [jsOr, hf, Bool.false_eq_true, if_false]
    exact jsOrDefault_jsOr_none envVar d

/-- C4: a failed `list-object-versions` makes `clearS3Bucket` return
"already empty" without error and with no delete calls; a successful,
parseable listing yields exactly one `delete-object` call per listed
object version and per listed delete marker, each keyed by its `Key` and
`VersionId`, and no error. -/
theorem c4_clear_bucket_deletes (bucketName region : String) :
    (∀ f listParsed, clearS3Bucket bucketName region (SafeResult.fail f) listParsed =
      ([AwsCmd.listObjectVersions bucketName region], Except.ok ())) ∧
    (∀ s listData, clearS3Bucket bucketName region (SafeResult.ok s) (some listData) =
      (AwsCmd.listObjectVersions bucketName region ::
        (((listData.Versions.getD []).map fun v =>
            AwsCmd.deleteObject bucketName v.Key v.VersionId region) ++
         ((listData.DeleteMarkers.getD []).map fun m =>
            AwsCmd.deleteObject bucketName m.Key m.VersionId region)),
       Except.ok ())) := by
  constructor
  · intro f listParsed; rfl
  · intro s listData
    by_cases h : (listData.Versions.getD []).length + (listData.DeleteMarkers.getD []).length = 0
    · have hv : listData.Versions.getD [] = [] :=
        List.length_eq_zero.mp (by omega)
      have hm : listData.DeleteMarkers.getD [] = [] :=
        List.length_eq_zero.mp (by omega)
      simp [clearS3Bucket, hv, hm]
    · simp [clearS3Bucket, h]

/-- Folding `setKey` over outputs whose keys all differ from `k` leaves the
record unchanged at `k`. -/
lemma foldl_setKey_of_not_mem (l : List Output) (acc : String → Option String)
    (k : String) (h : ∀ o ∈ l, o.OutputKey ≠ k) :
    l.foldl setKey acc k = acc k := by
  induction l generalizing acc with
  | nil => rfl
  | cons o t ih =>
    rw [List.foldl_cons, ih _ fun o' ho' => h o' (List.mem_cons_of_mem _ ho')]
    have hk : (k == o.OutputKey) = false :=
      beq_eq_false_iff_ne.mpr fun he => h o (List.mem_cons_self o t) he.symm
    simp [setKey, hk]

/-- Folding `setKey` over outputs with pairwise distinct keys recovers each
written value at its key. -/
lemma foldl_setKey_lookup (l : List Output) (acc : String → Option String)
    (hnd : (l.map Output.OutputKey).Nodup) :
    ∀ o ∈ l, l.foldl setKey acc o.OutputKey = some o.OutputValue := by
  induction l generalizing acc with
  | nil => intro o ho; cases ho
  | cons o' t ih =>
    rw [List.map_cons, List.nodup_cons] at hnd
    intro o ho
    rw [List.foldl_cons]
    rcases List.mem_cons.mp ho with rfl | hmem
    · have hnot : ∀ x ∈ t, x.OutputKey ≠ o.OutputKey := by
        intro x hx he
        exact hnd.1 (he ▸ List.mem_map_of_mem Output.OutputKey hx)
      rw [foldl_setKey_of_not_mem t _ _ hnot]
      simp [setKey]
    · exact ih _ hnd.2 o hmem

/-- C8: reading back an outputs array written by deploy (with pairwise
distinct `OutputKey`s, as `describe-stacks` returns) yields, for every
written pair, exactly the written `OutputValue` at its `OutputKey`. -/
theorem c8_outputs_roundtrip (l : List Output)
    (hnd : (l.map Output.OutputKey).Nodup) :
    ∀ o ∈ l, readOutputs (FileRead.content (some l)) o.OutputKey = some o.OutputValue :=
  fun o ho => foldl_setKey_lookup l emptyRecord hnd o ho

/-- A concrete outputs array with distinct keys. -/
def c8List : List Output :=
  [⟨"BucketName", "demo-bucket"⟩, ⟨"Region", "us-west-2"⟩]

/-- Witness for C8 at a concrete written array. -/
theorem c8_outputs_roundtrip_witness :
    readOutputs (FileRead.content (some c8List)) "Region" = some "us-west-2" :=
  c8_outputs_roundtrip c8List (by decide) ⟨"Region", "us-west-2"⟩ (by decide)

/-- Filtering a mapped list counts exactly the sources whose images pass
the test. -/
lemma length_filter_map_eq_countP {α β : Type} (l : List α) (g : α → β) (p : β → Bool) :
    ((l.map g).filter p).length = l.countP fun a => p (g a) := by
  induction l with
  | nil => rfl
  | cons a t ih =>
    rw [List.map_cons, List.filter_cons, List.countP_cons]
    by_cases h : p (g a)
    · simp [h, ih]
    · simp [h, ih]

/-- A result coming from `uploadFileToS3` fails exactly when its send
failed. -/
lemma uploadFileToS3_not_success (f : SeedFile) (r : S3SendResult) :
    (!(uploadFileToS3 f r).success) = isSendErr r := by
  cases r <;> rfl

/-- C7: over any enumerated file list, the upload loop produces exactly one
result per file (a failure never aborts the batch), the failed results are
exactly the files whose sends failed, each failed result carries the
captured error text and each successful one its entity tag, and the exit
code is non-zero precisely when at least one upload failed. -/
theorem c7_upload_summary (files : List SeedFile) (send : SeedFile → S3SendResult) :
    ((uploadToS3 files send).1).length = files.length ∧
    (((uploadToS3 files send).1).filter fun r => !r.success).length =
      files.countP (fun f => isSendErr (send f)) ∧
    ((uploadToS3 files send).2 ≠ 0 ↔
      0 < (((uploadToS3 files send).1).filter fun r => !r.success).length) ∧
    (∀ r ∈ (uploadToS3 files send).1,
      (r.success = false → ∃ m, r.error = some m) ∧
      (r.success = true → ∃ t, r.etag = some t)) := by
  by_cases hempty : files.length = 0
  · have hnil : files = [] := List.length_eq_zero.mp hempty
    subst hnil
    refine ⟨rfl, rfl, by simp [uploadToS3], by simp [uploadToS3]⟩
  · have hlen : (files.length == 0) = false := by
      simp [hempty]
    have hdef : uploadToS3 files send =
        (files.map fun f => uploadFileToS3 f (send f),
         if ((files.map fun f => uploadFileToS3 f (send f)).filter
              fun r => !r.success).length == 0 then 0 else 1) := by
      simp [uploadToS3, hlen]
    rw [hdef]
    refine ⟨List.length_map _ _, ?_, ?_, ?_⟩
    · rw [length_filter_map_eq_countP]
      exact List.countP_congr fun f _ => by rw [uploadFileToS3_not_success]
    · by_cases h : ((files.map fun f => uploadFileToS3 f (send f)).filter
          fun r => !r.success).length = 0
      · simp [h]
      · simp only [h, Nat.pos_of_ne_zero h, iff_true]
        have : (((files.map fun f => uploadFileToS3 f (send f)).filter
            fun r => !r.success).length == 0) = false := by simp [h]
        simp [this]
    · intro r hr
      rcases List.mem_map.mp hr with ⟨f, _, rfl⟩
      cases hs : send f <;> simp [uploadFileToS3, hs]

/-- C5: the resolved trust-account identifiers are never empty — the
hard-coded defaults terminate every resolution chain — so no external
command is ever executed while either identifier is empty, and the
trust-validation error of `deployStack` can never be thrown (its
conditional branch, which sits after the stack-existence probe, is
unreachable). -/
theorem c5_no_command_with_empty_trust_ids (opts : DeployCliOptions)
    (env : DeployEnv) (w : DeployWorld) :
    resolveTrustOne opts env (readOutputs w.outputsFile) ≠ "" ∧
    resolveTrustTwo opts env (readOutputs w.outputsFile) ≠ "" ∧
    ∀ msg, (deployStack opts env w).2.1 ≠ RunOutcome.threw msg := by
  refine ⟨resolveTrustOne_ne_empty _ _ _, resolveTrustTwo_ne_empty _ _ _, fun msg => ?_⟩
  rcases hp : afterStackOp w w.stackExistsAns
      (resolveRegion opts env (readOutputs w.outputsFile)) with ⟨rest, outc, written⟩
  have hthrew := afterStackOp_ne_threw w w.stackExistsAns
    (resolveRegion opts env (readOutputs w.outputsFile)) msg
  rw [hp] at hthrew
  simp only [deployStack, resolveTrustOne_beq_empty, resolveTrustTwo_beq_empty,
    Bool.or_self, Bool.false_eq_true, if_false, hp]
  exact hthrew

/-- C3: the stack create/update command executed by `deployStack` does not
depend on the resolved bucket name (which is only logged), it carries the
hard-coded parameter text `ParameterValue=s3-mcp-test-bucket-12345`, and it
is exactly the command placed on the wire by the deploy run. -/
theorem c3_bucket_param_hardcoded (opts : DeployCliOptions) (env : DeployEnv)
    (w : DeployWorld) (b1 b2 : Option String) :
    resolvedCommand { opts with bucketName := b1 } env (readOutputs w.outputsFile)
        w.stackExistsAns =
      resolvedCommand { opts with bucketName := b2 } env (readOutputs w.outputsFile)
        w.stackExistsAns ∧
    (∃ p q : String,
      resolvedCommand opts env (readOutputs w.outputsFile) w.stackExistsAns =
        p ++ bucketParamLiteral ++ q) ∧
    AwsCmd.stackOp (resolvedCommand opts env (readOutputs w.outputsFile) w.stackExistsAns) ∈
      (deployStack opts env w).1 := by
  refine ⟨rfl, ⟨_, _, rfl⟩, ?_⟩
  · rcases hp : afterStackOp w w.stackExistsAns
        (resolveRegion opts env (readOutputs w.outputsFile)) with ⟨rest, outc, written⟩
    simp only [deployStack, resolveTrustOne_beq_empty, resolveTrustTwo_beq_empty,
      Bool.or_self, Bool.false_eq_true, if_false, hp]
    simp [List.mem_cons]

/-- C2: on a safe-run failure of the stack command whose captured stderr
contains "No updates are to be performed", the deploy skips the wait step,
still issues the outputs fetch, and — when the fetch, parse and write
succeed — persists the parsed outputs and completes normally; any other
safe-run failure exits the process with code 1 and persists nothing. -/
theorem c2_no_updates_is_noop_success (opts : DeployCliOptions) (env : DeployEnv)
    (w : DeployWorld) (f : SafeFailure) (hf : w.opResult = SafeResult.fail f) :
    (stderrHasNoUpdates f = true →
      (∀ wc r, AwsCmd.waitStack wc r ∉ (deployStack opts env w).1) ∧
      AwsCmd.describeOutputs (resolveRegion opts env (readOutputs w.outputsFile)) ∈
        (deployStack opts env w).1 ∧
      (∀ r d, w.describeResult = some r → w.parsed = some d → w.writeOk = true →
        (deployStack opts env w).2.1 = RunOutcome.done ∧
        (deployStack opts env w).2.2 = some d)) ∧
    (stderrHasNoUpdates f = false →
      (deployStack opts env w).2.1 = RunOutcome.exited 1 ∧
      (deployStack opts env w).2.2 = none) := by
  constructor
  · intro hno
    have hafter : afterStackOp w w.stackExistsAns
        (resolveRegion opts env (readOutputs w.outputsFile)) =
        fetchOutputs w (resolveRegion opts env (readOutputs w.outputsFile)) := by
      simp [afterStackOp, hf, hno]
    have hds : deployStack opts env w =
        (AwsCmd.describeStacks STACK_NAME (resolveRegion opts env (readOutputs w.outputsFile)) ::
          AwsCmd.stackOp (resolvedCommand opts env (readOutputs w.outputsFile) w.stackExistsAns) ::
          (fetchOutputs w (resolveRegion opts env (readOutputs w.outputsFile))).1,
         (fetchOutputs w (resolveRegion opts env (readOutputs w.outputsFile))).2.1,
         (fetchOutputs w (resolveRegion opts env (readOutputs w.outputsFile))).2.2) := by
      simp only [deployStack, resolveTrustOne_beq_empty, resolveTrustTwo_beq_empty,
        Bool.or_self, Bool.false_eq_true, if_false, hafter]
    refine ⟨?_, ?_, ?_⟩
    · intro wc r
      rw [hds, fetchOutputs_trace]
      simp
    · rw [hds, fetchOutputs_trace]
      simp
    · intro r d h1 h2 h3
      rw [hds, fetchOutputs_success w _ r d h1 h2 h3]
      exact ⟨rfl, rfl⟩
  · intro hno
    have hafter : afterStackOp w w.stackExistsAns
        (resolveRegion opts env (readOutputs w.outputsFile)) =
        ([], RunOutcome.exited 1, none) := by
      simp [afterStackOp, hf, hno]
    have hds : deployStack opts env w =
        (AwsCmd.describeStacks STACK_NAME (resolveRegion opts env (readOutputs w.outputsFile)) ::
          AwsCmd.stackOp (resolvedCommand opts env (readOutputs w.outputsFile) w.stackExistsAns) :: [],
         RunOutcome.exited 1, none) := by
      simp only [deployStack, resolveTrustOne_beq_empty, resolveTrustTwo_beq_empty,
        Bool.or_self, Bool.false_eq_true, if_false, hafter]
    rw [hds]
    exact ⟨rfl, rfl⟩

/-- An environment with none of the deploy variables set. -/
def plainEnv : DeployEnv :=
  { BUCKET_NAME := none, AWS_DEFAULT_REGION := none,
    TRUST_ACCOUNT_ONE := none, TRUST_ACCOUNT_TWO := none }

/-- A concrete deploy world whose stack command fails with the "no updates"
stderr text and whose fetch/parse/write steps succeed. -/
def c2World : DeployWorld :=
  { outputsFile := FileRead.failure, stackExistsAns := true,
    opResult := SafeResult.fail
      ⟨"Command failed", none,
        some "An error occurred: No updates are to be performed."⟩,
    waitOk := true, describeResult := some "[]", parsed := some [], writeOk := true }

/-- Witness for C2 at a concrete no-updates failure: the wait step is
skipped, the run completes normally and persists the parsed outputs. -/
theorem c2_no_updates_witness :
    (∀ wc r, AwsCmd.waitStack wc r ∉ (deployStack initialDeployOptions plainEnv c2World).1) ∧
    (deployStack initialDeployOptions plainEnv c2World).2.1 = RunOutcome.done ∧
    (deployStack initialDeployOptions plainEnv c2World).2.2 = some [] := by
  have h := c2_no_updates_is_noop_success initialDeployOptions plainEnv c2World
    ⟨"Command failed", none, some "An error occurred: No updates are to be performed."⟩ rfl
  have h1 := h.1 (by decide)
  exact ⟨h1.1, (h1.2.2 "[]" [] rfl rfl rfl).1, (h1.2.2 "[]" [] rfl rfl rfl).2⟩

/-- C6: when the Outputs Record yields a (truthy) bucket name but the
stack-existence probe answers false, teardown returns successfully after
only the probe — no bucket-emptying call and no stack-deletion call is
issued. -/
theorem c6_teardown_noop_when_stack_absent (optRegion : Option String)
    (w : TeardownWorld)
    (hb : truthy (readOutputs w.outputsFile "BucketName") = true)
    (hs : w.stackExistsAns = false) :
    teardown optRegion w =
      ([AwsCmd.describeStacks STACK_NAME
          (jsOrDefault (jsOr optRegion (readOutputs w.outputsFile "Region")) "us-east-1")],
        RunOutcome.done) ∧
    ∀ c ∈ (teardown optRegion w).1,
      isBucketEmptyingCmd c = false ∧ isStackDeletionCmd c = false := by
  have heq : teardown optRegion w =
      ([AwsCmd.describeStacks STACK_NAME
          (jsOrDefault (jsOr optRegion (readOutputs w.outputsFile "Region")) "us-east-1")],
        RunOutcome.done) := by
    simp only [teardown, hb, hs, Bool.not_true, Bool.not_false, Bool.false_eq_true,
      if_false, if_true]
  refine ⟨heq, ?_⟩
  rw [heq]
  intro c hc
  rcases List.mem_singleton.mp hc with rfl
  exact ⟨rfl, rfl⟩

/-- An `outputs.json` state recording only a bucket name. -/
def c6File : FileRead := FileRead.content (some [⟨"BucketName", "demo-bucket"⟩])

/-- A concrete teardown world with a recorded bucket name and an absent
stack. -/
def c6World : TeardownWorld :=
  { outputsFile := c6File, stackExistsAns := false,
    listResult := SafeResult.ok "", listParsed := none,
    deleteResult := SafeResult.ok "", waitDeleteOk := true }

/-- Witness for C6 at a concrete recorded bucket name and absent stack. -/
theorem c6_teardown_noop_witness :
    teardown none c6World =
      ([AwsCmd.describeStacks STACK_NAME "us-east-1"], RunOutcome.done) := by
  have h := (c6_teardown_noop_when_stack_absent none c6World (by decide) rfl).1
  rw [h]
  rfl

end S3Mcp
